import Mathlib

/-!
Verification development for the zeroshot orchestrator.

Shallow embedding of the parts of the source relevant to the frozen
claims: the streaming stdout event parser (`src/status-footer.js`
parser section), the direct-API caller's JSON extraction chain
(`src/agent/direct-api-caller.js`), the provider capability probing and
command builders (`src/providers/...`), the provider level resolution
(`BaseProvider`), and a spec-modelled isolation manager (worktree and
container install retry; the isolation-manager source is not part of
this snapshot, only its tests and the spec describe it).

JavaScript values that flow through the parsers are modelled by the
inductive `JsValue` below; `JSON.parse` is modelled by the executable
fuel-based parser `jsonParse` over a JSON subset (integers, strings
with the common escapes, booleans, null, arrays, objects).  A JS value
that is `undefined` or absent is modelled as `JsValue.null` (both are
falsy and both read as absent fields).
-/

namespace Zeroshot

/-- Model of a JavaScript / JSON value. -/
inductive JsValue where
  | null : JsValue
  | bool : Bool → JsValue
  | num : Int → JsValue
  | str : String → JsValue
  | arr : List JsValue → JsValue
  | obj : List (String × JsValue) → JsValue
deriving Repr, Inhabited

/-- JavaScript truthiness: `undefined`/`null`, `false`, `0` and `""` are
falsy; every array and object is truthy. -/
def jsTruthy : JsValue → Bool
  | .null => false
  | .bool b => b
  | .num n => n != 0
  | .str s => s ≠ ""
  | .arr _ => true
  | .obj _ => true

/-- The JS `a || b` operator on modelled values. -/
def jsOr (a b : JsValue) : JsValue := if jsTruthy a then a else b

/-- The JS `a ?? b` operator (nullish coalescing) on modelled values. -/
def jsNullish (a b : JsValue) : JsValue :=
  match a with
  | .null => b
  | _ => a

/-- First-match association lookup (JS object property / `Map.get`). -/
def assocLookup {α : Type} (key : String) : List (String × α) → Option α
  | [] => none
  | (k, v) :: rest => if k = key then some v else assocLookup key rest

/-- Property access `v.f`: `null` when the receiver is not an object or
lacks the field (JS would give `undefined`; for a `null` receiver JS
throws, which none of the claims exercise — absent-absorbing here). -/
def getField (v : JsValue) (f : String) : JsValue :=
  match v with
  | .obj fs => match assocLookup f fs with
    | some w => w
    | none => .null
  | _ => .null

def lbrace : Char := Char.ofNat 123
def rbrace : Char := Char.ofNat 125

/-- JSON whitespace skipping. -/
def skipWs : List Char → List Char
  | [] => []
  | c :: cs => if c = ' ' ∨ c = '\t' ∨ c = '\n' ∨ c = '\r' then skipWs cs else c :: cs

/-- Decode a string-literal escape character (the `\uXXXX` form is
outside the modelled subset). -/
def escChar (e : Char) : Option Char :=
  if e = 'n' then some '\n'
  else if e = 't' then some '\t'
  else if e = 'r' then some '\r'
  else if e = 'b' then some (Char.ofNat 8)
  else if e = 'f' then some (Char.ofNat 12)
  else if e = '"' ∨ e = '\\' ∨ e = '/' then some e
  else none

/-- Parse the body of a JSON string literal after the opening quote,
returning the decoded characters and the input after the closing
quote. -/
def parseStrChars : List Char → Option (List Char × List Char)
  | [] => none
  | '"' :: rest => some ([], rest)
  | '\\' :: e :: rest =>
    match escChar e with
    | some c =>
      match parseStrChars rest with
      | some (cs, r) => some (c :: cs, r)
      | none => none
    | none => none
  | '\\' :: [] => none
  | c :: rest =>
    match parseStrChars rest with
    | some (cs, r) => some (c :: cs, r)
    | none => none

/-- Accumulate decimal digits. -/
def takeDigits : List Char → Nat → Nat × List Char
  | c :: cs, acc =>
    if c.isDigit then takeDigits cs (acc * 10 + (c.toNat - 48)) else (acc, c :: cs)
  | [], acc => (acc, [])

mutual

/-- Fuel-based parser for a JSON value (integer subset for numbers). -/
def parseValue : Nat → List Char → Option (JsValue × List Char)
  | 0, _ => none
  | fuel + 1, cs =>
    match skipWs cs with
    | [] => none
    | 'n' :: 'u' :: 'l' :: 'l' :: rest => some (.null, rest)
    | 't' :: 'r' :: 'u' :: 'e' :: rest => some (.bool true, rest)
    | 'f' :: 'a' :: 'l' :: 's' :: 'e' :: rest => some (.bool false, rest)
    | '"' :: rest =>
      match parseStrChars rest with
      | some (cs, r) => some (.str (String.mk cs), r)
      | none => none
    | '-' :: c :: rest =>
      if c.isDigit then
        let (n, r) := takeDigits (c :: rest) 0
        some (.num (-(n : Int)), r)
      else none
    | c :: rest =>
      if c.isDigit then
        let (n, r) := takeDigits (c :: rest) 0
        some (.num (n : Int), r)
      else if c = '[' then
        match skipWs rest with
        | ']' :: r => some (.arr [], r)
        | r => match parseElems fuel r with
          | some (vs, r2) => some (.arr vs, r2)
          | none => none
      else if c = lbrace then
        match skipWs rest with
        | r =>
          if r.head? = some rbrace then some (.obj [], r.tail)
          else match parseMembers fuel r with
            | some (ms, r2) => some (.obj ms, r2)
            | none => none
      else none

/-- Parse one or more comma-separated array elements and the closing
bracket. -/
def parseElems : Nat → List Char → Option (List JsValue × List Char)
  | 0, _ => none
  | fuel + 1, cs =>
    match parseValue fuel cs with
    | some (v, rest) =>
      match skipWs rest with
      | ']' :: r => some ([v], r)
      | ',' :: r =>
        match parseElems fuel r with
        | some (vs, r2) => some (v :: vs, r2)
        | none => none
      | _ => none
    | none => none

/-- Parse one or more comma-separated object members and the closing
brace. -/
def parseMembers : Nat → List Char → Option (List (String × JsValue) × List Char)
  | 0, _ => none
  | fuel + 1, cs =>
    match skipWs cs with
    | '"' :: rest =>
      match parseStrChars rest with
      | some (kcs, r) =>
        match skipWs r with
        | ':' :: r2 =>
          match parseValue fuel r2 with
          | some (v, rest2) =>
            match skipWs rest2 with
            | ',' :: r3 =>
              match parseMembers fuel r3 with
              | some (ms, r4) => some ((String.mk kcs, v) :: ms, r4)
              | none => none
            | r3 =>
              if r3.head? = some rbrace then some ([(String.mk kcs, v)], r3.tail)
              else none
          | none => none
        | _ => none
      | none => none
    | _ => none

end

/-- Model of `JSON.parse`: `none` when JS would throw. The whole input
must be consumed apart from trailing whitespace. -/
def jsonParse (s : String) : Option JsValue :=
  match parseValue (s.length + 2) s.toList with
  | some (v, rest) => if skipWs rest = [] then some v else none
  | none => none

/-- JS strict equality of a value against a string literal
(`v === "s"`). -/
def strEq (v : JsValue) (s : String) : Bool :=
  match v with
  | .str t => t = s
  | _ => false

/-- Function `safeJsonParse` from `src/status-footer.js`: `JSON.parse` with a
fallback instead of an exception. -/
def safeJsonParse (value : String) (fallback : JsValue) : JsValue :=
  match jsonParse value with
  | some v => v
  | none => fallback

/-- Neutral provider events produced by the stream parser.  Loose JS
object fields stay `JsValue`. -/
inductive NeutralEvent where
  | text (text : String)
  | thinking (text : String)
  | toolCall (toolName : JsValue) (toolId : JsValue) (input : JsValue)
  | toolResult (toolId : JsValue) (content : JsValue) (isError : Bool)
  | result (success : Bool) (inputTokens outputTokens : JsValue) (error : JsValue)
deriving Repr, Inhabited

/-- Return shape of `parseItem`: `null`, a single event, or an array of
events. -/
inductive ItemOut where
  | nothing : ItemOut
  | one : NeutralEvent → ItemOut
  | many : List NeutralEvent → ItemOut
deriving Repr, Inhabited

/-- Coercion applied by `Array.prototype.join` to each element:
`null`/`undefined` become the empty string. -/
def joinPiece : JsValue → String
  | .null => ""
  | .str s => s
  | .num n => toString n
  | .bool b => if b then "true" else "false"
  | .arr _ => ""
  | .obj _ => "[object Object]"

/-- The `item.call_id || item.id || item.tool_call_id || item.tool_id`
chain used for tool identifiers. -/
def toolIdOf (item : JsValue) : JsValue :=
  jsOr (getField item "call_id")
    (jsOr (getField item "id")
      (jsOr (getField item "tool_call_id") (getField item "tool_id")))

/-- Function `parseItem` from `src/status-footer.js`: turn one `item.created`
payload into neutral events. -/
def parseItem (item : JsValue) : ItemOut :=
  let msgEvents : List NeutralEvent :=
    if strEq (getField item "type") "message" && strEq (getField item "role") "assistant" then
      let content : List JsValue :=
        match getField item "content" with
        | .arr cs => cs
        | other => [.obj [("type", .str "text"), ("text", other)]]
      let text := String.join
        ((content.filter (fun c => strEq (getField c "type") "text")).map
          (fun c => joinPiece (getField c "text")))
      let thinking := String.join
        ((content.filter (fun c =>
            strEq (getField c "type") "thinking" || strEq (getField c "type") "reasoning")).map
          (fun c => joinPiece (getField c "text")))
      (if text ≠ "" then [NeutralEvent.text text] else []) ++
        (if thinking ≠ "" then [NeutralEvent.thinking thinking] else [])
    else []
  let callEvents : List NeutralEvent :=
    if strEq (getField item "type") "function_call" then
      let args : JsValue :=
        match getField item "arguments" with
        | .str s => safeJsonParse s (.obj [])
        | other => jsOr other (.obj [])
      [.toolCall (getField item "name") (toolIdOf item) args]
    else []
  let outputEvents : List NeutralEvent :=
    if strEq (getField item "type") "function_call_output" then
      let content :=
        jsNullish (getField item "output")
          (jsNullish (getField item "result")
            (jsNullish (getField item "content") (.str "")))
      [.toolResult (toolIdOf item) content (jsTruthy (getField item "error"))]
    else []
  match msgEvents ++ callEvents ++ outputEvents with
  | [] => .nothing
  | [e] => .one e
  | es => .many es

/-- Result of one `parseEvent` call: the produced events, plus the
argument the `onUnknown` callback was invoked with if the default
switch branch ran. -/
structure ParseOutcome where
  out : ItemOut
  unknownType : Option JsValue
deriving Repr, Inhabited

/-- Function `parseEvent` from `src/status-footer.js`: parse one stdout line.
An unparseable line yields no events (`return null`); the four known
event types are translated; anything else hits the default branch,
reports the type through `onUnknown` and yields no events. -/
def parseEvent (line : String) : ParseOutcome :=
  match jsonParse line with
  | none => ⟨.nothing, none⟩
  | some event =>
    let t := getField event "type"
    if strEq t "thread.started" then ⟨.nothing, none⟩
    else if strEq t "item.created" then ⟨parseItem (getField event "item"), none⟩
    else if strEq t "turn.completed" then
      let usage := jsOr (getField event "usage")
        (jsOr (getField (getField event "response") "usage") (.obj []))
      ⟨.one (.result true (jsOr (getField usage "input_tokens") (.num 0))
        (jsOr (getField usage "output_tokens") (.num 0)) .null), none⟩
    else if strEq t "turn.failed" then
      ⟨.one (.result false .null .null
        (jsOr (getField (getField event "error") "message")
          (jsOr (getField event "error") (.str "Turn failed")))), none⟩
    else ⟨.nothing, some t⟩

/-- Count stored for a key in the unknown-event map (`Map.get(type)`
with a 0 default).  First occurrence wins, like the JS `Map`. -/
def countOf (counts : List (String × Nat)) (t : String) : Nat :=
  match assocLookup t counts with
  | some n => n
  | none => 0

/-- The JS `Map.set(type, n)`: replace the first binding of the key or append
a new one. -/
def setCount (counts : List (String × Nat)) (t : String) (n : Nat) : List (String × Nat) :=
  match counts with
  | [] => [(t, n)]
  | (k, v) :: rest => if k = t then (k, n) :: rest else (k, v) :: setCount rest t n

/-- Method `OpenAIProvider._logUnknown`: bump the per-type counter and log,
unless the counter already reached 5.  The map key is the raw
`event.type` value; the stream protocol's types are strings, so keys
are modelled as strings.  Returns the new map and whether a log line
was emitted. -/
def logUnknown (counts : List (String × Nat)) (t : String) : List (String × Nat) × Bool :=
  let current := countOf counts t
  if 5 ≤ current then (counts, false)
  else (setCount counts t (current + 1), true)

/-- Method `OpenAIProvider.parseEvent` wiring: parse the line and feed the
default-branch type into `_logUnknown`.  (A non-string unknown type
would be keyed by object identity in the JS `Map`; outside the
modelled stream protocol.) -/
def codexHandleLine (counts : List (String × Nat)) (line : String) :
    ItemOut × List (String × Nat) × Option String :=
  let r := parseEvent line
  match r.unknownType with
  | some (.str s) =>
    let p := logUnknown counts s
    (r.out, p.1, if p.2 then some s else none)
  | some _ => (r.out, counts, none)
  | none => (r.out, counts, none)

/-- Process a stream of stdout lines, starting from the given counter
map; returns the final map and the keys of the log lines emitted. -/
def codexRun (counts : List (String × Nat)) : List String → List (String × Nat) × List String
  | [] => (counts, [])
  | l :: ls =>
    let step := codexHandleLine counts l
    let rest := codexRun step.2.1 ls
    (rest.1, (step.2.2.toList) ++ rest.2)

/-- Method `OpenAIProvider._warnOnce` and its backing set (module-level `warned`):
returns the new set and whether the warning was emitted. -/
def warnOnce (warned : List String) (key : String) : List String × Bool :=
  if key ∈ warned then (warned, false) else (key :: warned, true)

/-- Truthiness of an optional JS string (absent or empty is falsy). -/
def optTruthy : Option String → Bool
  | some s => s ≠ ""
  | none => false

/-- The JS `a || b` fallback for a string-valued expression. -/
def jsOrStr (o : Option String) (d : String) : String :=
  match o with
  | some s => if s = "" then d else s
  | none => d

/-- The JS `a || b` fallback where both sides may be absent. -/
def jsOrOpt (o d : Option String) : Option String :=
  match o with
  | some s => if s = "" then d else some s
  | none => d

/-- Containment of one character list in another. -/
def listHasInfix (pat : List Char) : List Char → Bool
  | [] => pat = []
  | c :: cs => pat.isPrefixOf (c :: cs) || listHasInfix pat cs

/-- Substring test modelling the `/pat/.test(help)` regex probes of
`OpenAIProvider.getCliFeatures` (word boundaries elided). -/
def hasPat (h pat : String) : Bool :=
  listHasInfix pat.toList h.toList

/-- The capability struct computed by `OpenAIProvider.getCliFeatures`
from the provider's `--help` output (`none` when the help output could
not be obtained). -/
structure CodexCliFeatures where
  supportsJson : Bool
  supportsOutputSchema : Bool
  supportsAutoApprove : Bool
  supportsCwd : Bool
  supportsConfigOverride : Bool
  supportsModel : Bool
  unknown : Bool
deriving Repr, DecidableEq

/-- The probing part of `OpenAIProvider.getCliFeatures`: every
capability defaults to `true` when the help output is missing. -/
def computeCliFeatures (help : Option String) : CodexCliFeatures :=
  match help with
  | none =>
    { supportsJson := true, supportsOutputSchema := true, supportsAutoApprove := true,
      supportsCwd := true, supportsConfigOverride := true, supportsModel := true,
      unknown := true }
  | some h =>
    { supportsJson := hasPat h "--json"
      supportsOutputSchema := hasPat h "--output-schema"
      supportsAutoApprove := hasPat h "--dangerously-bypass-approvals-and-sandbox"
      supportsCwd := hasPat h " -C" || hasPat h "--cwd"
      supportsConfigOverride := hasPat h "--config"
      supportsModel := hasPat h " -m" || hasPat h "--model"
      unknown := false }

/-- Method `OpenAIProvider.getCliFeatures` with its `this._cliFeatures`
memoisation: probe only when the cache is empty, then store. -/
def getCliFeatures (probe : Option String) (cache : Option CodexCliFeatures) :
    CodexCliFeatures × Option CodexCliFeatures :=
  match cache with
  | some f => (f, some f)
  | none =>
    let f := computeCliFeatures probe
    (f, some f)

/-- Tri-state capability flags as seen by the command builders
(`options.cliFeatures`): a JS field is `true`, `false` or absent. -/
structure CliFeatureFlags where
  supportsJson : Option Bool := none
  supportsOutputSchema : Option Bool := none
  supportsAutoApprove : Option Bool := none
  supportsCwd : Option Bool := none
  supportsConfigOverride : Option Bool := none
  supportsModel : Option Bool := none
  supportsStreamJson : Option Bool := none
  supportsVerbose : Option Bool := none
  supportsIncludePartials : Option Bool := none
  supportsJsonSchema : Option Bool := none
  supportsOutputFormat : Option Bool := none
deriving Repr, DecidableEq

/-- A resolved model spec as passed to the builders. -/
structure ModelSpec where
  model : Option String := none
  reasoningEffort : Option String := none
deriving Repr, DecidableEq

/-- The `options` record of the command builders.  `jsonSchema` holds
the serialized schema (the JS code stringifies non-string schemas). -/
structure BuildOptions where
  modelSpec : Option ModelSpec := none
  outputFormat : Option String := none
  jsonSchema : Option String := none
  cwd : Option String := none
  autoApprove : Bool := false
  cliFeatures : CliFeatureFlags := {}
deriving Repr, DecidableEq

/-- The `commandConfig` record of the anthropic builder. -/
structure CommandConfig where
  command : Option String := none
  args : List String := []
deriving Repr, DecidableEq

/-- A built provider invocation. -/
structure BuiltCommand where
  binary : String
  args : List String
  env : List (String × String)
deriving Repr, DecidableEq

/-- The `modelSpec?.model` truthiness helper. -/
def modelOf (o : Option ModelSpec) : Option String :=
  o.bind (·.model)

/-- The `modelSpec?.reasoningEffort` truthiness helper. -/
def effortOf (o : Option ModelSpec) : Option String :=
  o.bind (·.reasoningEffort)

/-- Function `buildCommand` of the anthropic cli-builder: every capability gate
is `!== false`, so an absent capability lets the flag through. -/
def anthropicBuildCommand (context : String) (options : BuildOptions)
    (commandConfig : CommandConfig) : BuiltCommand :=
  let f := options.cliFeatures
  let command := jsOrStr commandConfig.command "claude"
  let args := commandConfig.args ++ ["--print", "--input-format", "text"]
  let args := if optTruthy options.outputFormat && (f.supportsOutputFormat ≠ some false : Bool) then
      args ++ ["--output-format", options.outputFormat.getD ""]
    else args
  let args := if options.outputFormat == some "stream-json" then
      (if (f.supportsVerbose ≠ some false : Bool) then args ++ ["--verbose"] else args) ++
        (if (f.supportsIncludePartials ≠ some false : Bool) then ["--include-partial-messages"] else [])
    else args
  let args := if optTruthy options.jsonSchema && options.outputFormat == some "json" &&
      (f.supportsJsonSchema ≠ some false : Bool) then
      args ++ ["--json-schema", options.jsonSchema.getD ""]
    else args
  let args := if optTruthy (modelOf options.modelSpec) && (f.supportsModel ≠ some false : Bool) then
      args ++ ["--model", (modelOf options.modelSpec).getD ""]
    else args
  let args := if options.autoApprove && (f.supportsAutoApprove ≠ some false : Bool) then
      args ++ ["--dangerously-skip-permissions"]
    else args
  { binary := command, args := args ++ [context], env := [] }

/-- Function `buildCommand` of the openai cli-builder: capability gates are
truthiness checks, so an absent capability suppresses the flag; the
`-m` model flag has no capability gate at all. -/
def openaiCliBuildCommand (context : String) (options : BuildOptions) : BuiltCommand :=
  let f := options.cliFeatures
  let args := ["exec"]
  let args := if (options.outputFormat == some "stream-json" ||
      options.outputFormat == some "json") && f.supportsJson == some true then
      args ++ ["--json"]
    else args
  let args := if optTruthy (modelOf options.modelSpec) then
      args ++ ["-m", (modelOf options.modelSpec).getD ""]
    else args
  let args := if optTruthy (effortOf options.modelSpec) && f.supportsConfigOverride == some true then
      args ++ ["--config",
        "model_reasoning_effort=\"" ++ (effortOf options.modelSpec).getD "" ++ "\""]
    else args
  let args := if optTruthy options.cwd && f.supportsCwd == some true then
      args ++ ["-C", options.cwd.getD ""]
    else args
  let args := if options.autoApprove && f.supportsAutoApprove == some true then
      args ++ ["--dangerously-bypass-approvals-and-sandbox"]
    else args
  let args := if optTruthy options.jsonSchema && f.supportsOutputSchema == some true then
      args ++ ["--output-schema", options.jsonSchema.getD ""]
    else args
  { binary := "codex", args := args ++ [context], env := [] }

/-- Function `buildCommand` of the google cli-builder: capability gates are
truthiness checks here as well. -/
def googleBuildCommand (context : String) (options : BuildOptions) : BuiltCommand :=
  let f := options.cliFeatures
  let args := ["-p", context]
  let args := if (options.outputFormat == some "stream-json" ||
      options.outputFormat == some "json") && f.supportsStreamJson == some true then
      args ++ ["--output-format", "stream-json"]
    else args
  let args := if optTruthy (modelOf options.modelSpec) then
      args ++ ["-m", (modelOf options.modelSpec).getD ""]
    else args
  let args := if optTruthy options.cwd && f.supportsCwd == some true then
      args ++ ["--cwd", options.cwd.getD ""]
    else args
  let args := if options.autoApprove && f.supportsAutoApprove == some true then
      args ++ ["--yolo"]
    else args
  { binary := "gemini", args := args, env := [] }

/-- Method `OpenAIProvider.buildCommand`: emit the one-time warnings for
requested features whose capability is explicitly `false`, then
delegate to the cli-builder.  Returns the command, the updated warn
set and the warning keys emitted by this call. -/
def openaiProviderBuildCommand (warned : List String) (context : String)
    (options : BuildOptions) : BuiltCommand × List String × List String :=
  let f := options.cliFeatures
  let s1 :=
    if options.autoApprove && f.supportsAutoApprove == some false then
      warnOnce warned "openai-auto-approve"
    else (warned, false)
  let s2 :=
    if optTruthy options.jsonSchema && f.supportsOutputSchema == some false then
      warnOnce s1.1 "openai-jsonschema"
    else (s1.1, false)
  let s3 :=
    if optTruthy (effortOf options.modelSpec) && f.supportsConfigOverride == some false then
      warnOnce s2.1 "openai-reasoning"
    else (s2.1, false)
  let emitted := (if s1.2 then ["openai-auto-approve"] else []) ++
    (if s2.2 then ["openai-jsonschema"] else []) ++
    (if s3.2 then ["openai-reasoning"] else [])
  (openaiCliBuildCommand context options, s3.1, emitted)

/-- Agent configuration fields read by `shouldUseDirectApi`. -/
structure AgentConfig where
  useDirectApi : Option Bool := none
  role : Option String := none
  outputFormat : Option String := none
  jsonSchema : JsValue := .null
deriving Repr, Inhabited

/-- Function `shouldUseDirectApi` from `src/agent/direct-api-caller.js`. -/
def shouldUseDirectApi (apiKey : Option String) (cfg : AgentConfig) : Bool :=
  if !optTruthy apiKey then false
  else if cfg.useDirectApi = some true then true
  else if cfg.useDirectApi = some false then false
  else
    decide (cfg.role = some "conductor") && decide (cfg.outputFormat = some "json") &&
      jsTruthy cfg.jsonSchema

/-- Split a character list at the first occurrence of an infix
pattern, returning the part before it and the part after it. -/
def splitFirstInfix (pat : List Char) : List Char → Option (List Char × List Char)
  | [] => if pat = [] then some ([], []) else none
  | c :: cs =>
    if pat.isPrefixOf (c :: cs) then some ([], (c :: cs).drop pat.length)
    else match splitFirstInfix pat cs with
      | some (pre, post) => some (c :: pre, post)
      | none => none

/-- JS regex whitespace (`\s`), a superset of JSON whitespace. -/
def skipJsWs : List Char → List Char
  | [] => []
  | c :: cs =>
    if c = ' ' ∨ c = '\t' ∨ c = '\n' ∨ c = '\r' ∨ c = Char.ofNat 12 ∨ c = Char.ofNat 11 then
      skipJsWs cs
    else c :: cs

/-- The fenced-block extraction regex
`/(backtick-fence)json\s*([\s\S]*?)(backtick-fence)/` of
`callDirectApi`: after the first fence marker, skip whitespace, then
capture lazily up to the next closing fence. -/
def fencedJsonBlock (raw : String) : Option String :=
  match splitFirstInfix "```json".toList raw.toList with
  | none => none
  | some (_, rest) =>
    match splitFirstInfix "```".toList (skipJsWs rest) with
    | none => none
    | some (inner, _) => some (String.mk inner)

/-- The greedy object regex `/\x7b[\s\S]*\x7d/` of `callDirectApi`: the
span from the first opening brace to the last closing brace, when the
latter lies strictly after the former. -/
def greedyObjectSpan (raw : String) : Option String :=
  let cs := raw.toList
  match cs.indexOf? lbrace, cs.reverse.indexOf? rbrace with
  | some i, some jr =>
    let j := cs.length - 1 - jr
    if i < j then some (String.mk ((cs.drop i).take (j - i + 1))) else none
  | _, _ => none

/-- The JSON extraction chain of `callDirectApi` when a schema is
configured: strict parse; else parse the fenced block's contents (a
failure there propagates out of the catch block as an error); else
parse the greedy first-brace-to-last-brace span; else fail. -/
def extractParsedJson (raw : String) : Except String JsValue :=
  match jsonParse raw with
  | some v => .ok v
  | none =>
    match fencedJsonBlock raw with
    | some inner =>
      match jsonParse inner.trim with
      | some v => .ok v
      | none => .error "Unexpected token in fenced block"
    | none =>
      match greedyObjectSpan raw with
      | some span =>
        match jsonParse span with
        | some v => .ok v
        | none => .error "Unexpected token in object span"
      | none =>
        .error ("Could not parse JSON from response: " ++ String.mk (raw.toList.take 200))

/-- Stated from the amended claim's words, for comparison with
`extractParsedJson`: strict parse of the whole text; else, when a
fenced json block exists, a parse of its trimmed contents whose
failure is a hard error with no further fallback; else, when a
first-brace-to-last-brace span exists, a parse of it whose failure is
a hard error; else a validation error. -/
def amendedExtractChain (raw : String) : Except String JsValue :=
  match jsonParse raw with
  | some v => .ok v
  | none =>
    match fencedJsonBlock raw, greedyObjectSpan raw with
    | some inner, _ =>
      match jsonParse inner.trim with
      | some v => .ok v
      | none => .error "Unexpected token in fenced block"
    | none, some span =>
      match jsonParse span with
      | some v => .ok v
      | none => .error "Unexpected token in object span"
    | none, none =>
      .error ("Could not parse JSON from response: " ++ String.mk (raw.toList.take 200))

/-- Helper for the balanced-object scan: consume up to the brace that
closes the object opened `depth` levels ago. -/
def balancedFrom : List Char → Nat → List Char → Option (List Char)
  | [], _, _ => none
  | c :: rest, depth, acc =>
    if c = lbrace then balancedFrom rest (depth + 1) (c :: acc)
    else if c = rbrace then
      if depth = 1 then some (c :: acc).reverse
      else balancedFrom rest (depth - 1) (c :: acc)
    else balancedFrom rest depth (c :: acc)

/-- Stated from the claim's words, for comparison with
`greedyObjectSpan`: the first *balanced* JSON object in the text. -/
def firstBalancedObject (raw : String) : Option String :=
  match raw.toList.dropWhile (· ≠ lbrace) with
  | [] => none
  | cs => (balancedFrom cs 0 []).map String.mk

/-- One provider level entry (`LEVEL_MAPPING` values). -/
structure LevelEntry where
  rank : Nat
  model : String
  reasoningEffort : Option String := none
deriving Repr, DecidableEq

/-- A per-level settings override (`levelOverrides` values). -/
structure LevelOverride where
  model : Option String := none
  reasoningEffort : Option String := none
deriving Repr, DecidableEq

/-- Result shape of `BaseProvider.resolveModelSpec`. -/
structure ResolvedModelSpec where
  level : String
  model : String
  reasoningEffort : Option String
deriving Repr, DecidableEq

abbrev LevelMapping := List (String × LevelEntry)

/-- Method `BaseProvider.resolveModelSpec`: resolve a level through the
mapping, silently falling back to the default level's entry when the
requested level has none, and erroring only when that fallback is also
missing.  The requested level name is reported in the result. -/
def resolveModelSpec (mapping : LevelMapping) (defaultLevel : String) (level : String)
    (overrides : List (String × LevelOverride)) : Except String ResolvedModelSpec :=
  let base :=
    match assocLookup level mapping with
    | some b => some b
    | none => assocLookup defaultLevel mapping
  match base with
  | none => .error ("Unknown level \"" ++ level ++ "\"")
  | some b =>
    let ov := (assocLookup level overrides).getD {}
    .ok { level := level, model := jsOrStr ov.model b.model,
          reasoningEffort := jsOrOpt ov.reasoningEffort b.reasoningEffort }

/-- Rank of a level key in a mapping (only read after existence was
checked; 0 stands for the JS `undefined`). -/
def rankOf (mapping : LevelMapping) (key : String) : Nat :=
  ((assocLookup key mapping).map (·.rank)).getD 0

/-- Method `BaseProvider.validateLevel`: reject unknown or out-of-bounds
levels with an error. -/
def validateLevel (mapping : LevelMapping) (level : String)
    (minLevel maxLevel : Option String) : Except String String :=
  if (assocLookup level mapping).isNone then
    .error ("Invalid level \"" ++ level ++ "\"")
  else if optTruthy minLevel && (assocLookup (minLevel.getD "") mapping).isNone then
    .error ("Invalid minLevel \"" ++ minLevel.getD "" ++ "\"")
  else if optTruthy maxLevel && (assocLookup (maxLevel.getD "") mapping).isNone then
    .error ("Invalid maxLevel \"" ++ maxLevel.getD "" ++ "\"")
  else if optTruthy minLevel && optTruthy maxLevel &&
      rankOf mapping (maxLevel.getD "") < rankOf mapping (minLevel.getD "") then
    .error "minLevel exceeds maxLevel"
  else if optTruthy maxLevel && rankOf mapping (maxLevel.getD "") < rankOf mapping level then
    .error "Level exceeds maxLevel"
  else if optTruthy minLevel && rankOf mapping level < rankOf mapping (minLevel.getD "") then
    .error "Level is below minLevel"
  else .ok level

/-- Constant `LEVEL_MAPPING` of the openai provider. -/
def openaiLevelMapping : LevelMapping :=
  [("level1", { rank := 1, model := "openai-model-main", reasoningEffort := some "low" }),
   ("level2", { rank := 2, model := "openai-model-main", reasoningEffort := some "medium" }),
   ("level3", { rank := 3, model := "openai-model-main", reasoningEffort := some "xhigh" })]

/-- Constant `DEFAULT_LEVEL` of the openai provider. -/
def openaiDefaultLevel : String := "level2"

/-- Constant `LEVEL_MAPPING` of the google provider. -/
def googleLevelMapping : LevelMapping :=
  [("level1", { rank := 1, model := "google-tier-1" }),
   ("level2", { rank := 2, model := "google-tier-2" }),
   ("level3", { rank := 3, model := "google-tier-3" })]

/-- Modelled from the spec: outcome of one `execInContainer` install
attempt (the isolation-manager source is absent from this snapshot;
§4.1 states thrown exec errors are treated like a non-zero exit). -/
inductive ExecResult where
  | success : ExecResult
  | nonzeroExit : ExecResult
  | thrown : ExecResult
deriving Repr, DecidableEq

/-- Modelled from the spec: observable outcome of the bounded install
retry of `createContainer` — number of attempts made, seconds slept
before each retry (in order), whether the exhaustion warning was
logged, and whether the install succeeded. -/
structure InstallOutcome where
  attempts : Nat
  sleepsSec : List Nat
  warned : Bool
  installed : Bool
deriving Repr, DecidableEq

/-- Modelled from the spec: the install retry loop of
`createContainer` (§4.1): up to `maxAttempts` attempts, sleeping
`2·2^(k-1)` seconds after failed attempt `k` except after the last,
warning on exhaustion.  `exec` gives the result of each attempt by its
1-based index; an attempt counts as failed unless it is `success`. -/
def installRetryGo (exec : Nat → ExecResult) : Nat → Nat → List Nat → InstallOutcome
  | _, 0, sleeps => { attempts := 0, sleepsSec := sleeps.reverse, warned := true, installed := false }
  | attempt, remaining + 1, sleeps =>
    if exec attempt = .success then
      { attempts := attempt, sleepsSec := sleeps.reverse, warned := false, installed := true }
    else if remaining = 0 then
      { attempts := attempt, sleepsSec := sleeps.reverse, warned := true, installed := false }
    else installRetryGo exec (attempt + 1) remaining (2 * 2 ^ (attempt - 1) :: sleeps)

/-- Modelled from the spec: run the install retry with 3 attempts
total. -/
def installWithRetry (exec : Nat → ExecResult) : InstallOutcome :=
  installRetryGo exec 1 3 []

/-- Modelled from the spec: result of `createContainer` — the
container id together with the install outcome. -/
structure ContainerResult where
  containerId : String
  install : InstallOutcome
deriving Repr, DecidableEq

/-- Modelled from the spec: `createContainer(clusterId, {workDir})`
(§4.1).  When the work directory has a package manifest the install
runs with retry; install exhaustion is non-fatal, so the container is
returned successfully in every case (`Except.ok` always). -/
def createContainer (clusterId : String) (hasManifest : Bool) (exec : Nat → ExecResult) :
    Except String ContainerResult :=
  if hasManifest then
    .ok { containerId := "zeroshot-" ++ clusterId, install := installWithRetry exec }
  else
    .ok { containerId := "zeroshot-" ++ clusterId,
          install := { attempts := 0, sleepsSec := [], warned := false, installed := true } }

/-- Modelled from the spec: a worktree isolation record
(`{path, branch, repoRoot}`). -/
structure WorktreeInfo where
  path : String
  branch : String
  repoRoot : String
deriving Repr, DecidableEq

/-- Modelled from the spec: the state touched by worktree isolation —
the branches of the enclosing repo, its git worktree registrations
(by worktree path), the worktree directories on disk, and the
manager's cluster-id map. -/
structure IsoState where
  branches : List String
  registrations : List String
  dirs : List String
  worktrees : List (String × WorktreeInfo)
deriving Repr, DecidableEq

/-- Modelled from the spec: `createWorktree(clusterId, repoRoot)`
(§4.1): clean any orphaned worktree at the target path, then create a
fresh worktree at `<tmp>/zeroshot-worktrees/<clusterId>` on a new
branch `zeroshot/<clusterId>` and register it. -/
def createWorktree (clusterId repoRoot : String) (st : IsoState) : IsoState × WorktreeInfo :=
  let path := "/tmp/zeroshot-worktrees/" ++ clusterId
  let branch := "zeroshot/" ++ clusterId
  let info : WorktreeInfo := { path := path, branch := branch, repoRoot := repoRoot }
  let st :=
    { st with dirs := st.dirs.filter (· ≠ path),
              registrations := st.registrations.filter (· ≠ path) }
  ({ branches := if branch ∈ st.branches then st.branches else branch :: st.branches,
     registrations := path :: st.registrations,
     dirs := path :: st.dirs,
     worktrees := (clusterId, info) :: st.worktrees.filter (·.1 ≠ clusterId) }, info)

/-- Modelled from the spec: `cleanupWorktree(clusterId)` (§4.1):
remove the registration and delete the directory of the cluster's
worktree, preserving the branch; a no-op for unknown cluster ids. -/
def cleanupWorktree (clusterId : String) (st : IsoState) : IsoState :=
  match assocLookup clusterId st.worktrees with
  | none => st
  | some info =>
    { branches := st.branches,
      registrations := st.registrations.filter (· ≠ info.path),
      dirs := st.dirs.filter (· ≠ info.path),
      worktrees := st.worktrees.filter (·.1 ≠ clusterId) }

/-- Modelled from the spec: the isolation effect of
`kill(clusterId)` (§4.4): cleanup of the worktree, branch preserved. -/
def killClusterIsolation (clusterId : String) (st : IsoState) : IsoState :=
  cleanupWorktree clusterId st

theorem assocLookup_filter_key_ne_none {α : Type} (l : List (String × α)) (cid : String) :
    assocLookup cid (l.filter (·.1 ≠ cid)) = none := by
  induction l with
  | nil => rfl
  | cons p t ih =>
    rcases p with ⟨k, v⟩
    by_cases h : k = cid
    · simpa [List.filter_cons, h] using ih
    · simp only [List.filter_cons]
      simp only [decide_not]
      rw [if_pos]
      · simp only [assocLookup, if_neg h]
        simpa using ih
      · simp [h]

theorem cleanupWorktree_not_found (cid : String) (st : IsoState)
    (h : assocLookup cid st.worktrees = none) : cleanupWorktree cid st = st := by
  unfold cleanupWorktree
  rw [h]

/-- C2: cleaning up a cluster's worktree isolation (directly or via a
kill of the cluster) deletes the worktree directory and removes its
git registration, while the branch `zeroshot/<clusterId>` stays in the
enclosing repository. -/
theorem cleanup_removes_dir_and_registration_preserves_branch
    (cid root : String) (st : IsoState) :
    (cleanupWorktree cid (createWorktree cid root st).1).dirs.all
        (· ≠ (createWorktree cid root st).2.path) = true ∧
    (cleanupWorktree cid (createWorktree cid root st).1).registrations.all
        (· ≠ (createWorktree cid root st).2.path) = true ∧
    ("zeroshot/" ++ cid) ∈ (cleanupWorktree cid (createWorktree cid root st).1).branches ∧
    killClusterIsolation cid (createWorktree cid root st).1 =
      cleanupWorktree cid (createWorktree cid root st).1 := by
  refine ⟨?_, ?_, ?_, rfl⟩
  · simp [cleanupWorktree, createWorktree, assocLookup, List.all_eq_true, List.mem_filter]
  · simp [cleanupWorktree, createWorktree, assocLookup, List.all_eq_true, List.mem_filter]
  · by_cases hb : ("zeroshot/" ++ cid) ∈ st.branches <;>
      simp [cleanupWorktree, createWorktree, assocLookup, hb]

/-- C3: `cleanupWorktree` is idempotent — a second application is the
identity, and applying it to an id with no registered worktree is a
no-op. -/
theorem cleanupWorktree_idempotent (cid : String) (st : IsoState) :
    cleanupWorktree cid (cleanupWorktree cid st) = cleanupWorktree cid st ∧
    (assocLookup cid st.worktrees = none → cleanupWorktree cid st = st) := by
  constructor
  · cases hl : assocLookup cid st.worktrees with
    | none =>
      rw [cleanupWorktree_not_found cid st hl]
      exact cleanupWorktree_not_found cid st hl
    | some info =>
      have h2 : assocLookup cid ((cleanupWorktree cid st).worktrees) = none := by
        simp only [cleanupWorktree, hl]
        exact assocLookup_filter_key_ne_none st.worktrees cid
      exact cleanupWorktree_not_found cid _ h2
  · exact cleanupWorktree_not_found cid st

/-- C3 witness: double cleanup on a concrete empty state. -/
theorem cleanupWorktree_idempotent_witness :
    cleanupWorktree "c1" ⟨[], [], [], []⟩ = ⟨[], [], [], []⟩ :=
  (cleanupWorktree_idempotent "c1" ⟨[], [], [], []⟩).2 rfl

/-- C4: when the help probe fails, `getCliFeatures` returns a struct
with every capability `true`, and the struct is cached so that any
later call (whatever its probe would return) yields the same struct
and state. -/
theorem getCliFeatures_probe_failure_all_true (p2 : Option String) :
    (getCliFeatures none none).1.supportsJson = true ∧
    (getCliFeatures none none).1.supportsOutputSchema = true ∧
    (getCliFeatures none none).1.supportsAutoApprove = true ∧
    (getCliFeatures none none).1.supportsCwd = true ∧
    (getCliFeatures none none).1.supportsConfigOverride = true ∧
    (getCliFeatures none none).1.supportsModel = true ∧
    (getCliFeatures none none).1.unknown = true ∧
    getCliFeatures p2 (getCliFeatures none none).2 =
      ((getCliFeatures none none).1, (getCliFeatures none none).2) := by
  refine ⟨rfl, rfl, rfl, rfl, rfl, rfl, rfl, ?_⟩
  simp [getCliFeatures]

/-- C9: the stream parser is exception-free on malformed lines — any
line `JSON.parse` rejects makes `parseEvent` return null (no events,
no unknown callback), and `safeJsonParse` returns its fallback. -/
theorem parseEvent_total_on_bad_json (s : String) (fb : JsValue)
    (h : jsonParse s = none) :
    parseEvent s = ⟨.nothing, none⟩ ∧ safeJsonParse s fb = fb := by
  constructor
  · simp [parseEvent, h]
  · simp [safeJsonParse, h]

/-- C9 witness: the empty line and a truncated line. -/
theorem parseEvent_total_on_bad_json_witness :
    parseEvent "" = ⟨.nothing, none⟩ ∧ safeJsonParse "" .null = .null :=
  parseEvent_total_on_bad_json "" .null rfl

/-- C10: for a level absent from the mapping, `resolveModelSpec` falls
back to the default level's entry while reporting the requested level
name, errors only when the default level also has no entry, and does
not reject the unknown level the way `validateLevel` does. -/
theorem resolveModelSpec_unknown_level_fallback (mapping : LevelMapping)
    (defaultLevel level : String) (overrides : List (String × LevelOverride))
    (h : assocLookup level mapping = none) :
    (∀ b, assocLookup defaultLevel mapping = some b →
      resolveModelSpec mapping defaultLevel level overrides =
        .ok { level := level,
              model := jsOrStr ((assocLookup level overrides).getD {}).model b.model,
              reasoningEffort :=
                jsOrOpt ((assocLookup level overrides).getD {}).reasoningEffort
                  b.reasoningEffort }) ∧
    (assocLookup defaultLevel mapping = none →
      resolveModelSpec mapping defaultLevel level overrides =
        .error ("Unknown level \"" ++ level ++ "\"")) ∧
    validateLevel mapping level none none =
      .error ("Invalid level \"" ++ level ++ "\"") := by
  refine ⟨?_, ?_, ?_⟩
  · intro b hb
    simp [resolveModelSpec, h, hb]
  · intro hb
    simp [resolveModelSpec, h, hb]
  · simp [validateLevel, h]

/-- C10 witness: `level9` against the openai mapping resolves to the
default level2 entry under the requested name. -/
theorem resolveModelSpec_unknown_level_fallback_witness :
    resolveModelSpec openaiLevelMapping "level2" "level9" [] =
      .ok { level := "level9", model := "openai-model-main",
            reasoningEffort := some "medium" } :=
  (resolveModelSpec_unknown_level_fallback openaiLevelMapping "level2" "level9" [] rfl).1
    { rank := 2, model := "openai-model-main", reasoningEffort := some "medium" } rfl

theorem installWithRetry_all_fail (e : Nat → ExecResult) (he : ∀ i, e i ≠ .success) :
    installWithRetry e =
      { attempts := 3, sleepsSec := [2, 4], warned := true, installed := false } := by
  unfold installWithRetry
  simp [installRetryGo, he 1, he 2, he 3]

/-- C1: with a package manifest and a persistently failing install
command, `createContainer` makes exactly 3 attempts, sleeping 2s
before the second and 4s before the third and nothing after the last,
warns on exhaustion, and still returns the container; and any exec
function with the same success pattern (e.g. throwing instead of
exiting non-zero) produces the identical result. -/
theorem createContainer_install_exhaustion (cid : String) (exec : Nat → ExecResult)
    (h : ∀ i, exec i ≠ ExecResult.success) :
    createContainer cid true exec =
      .ok { containerId := "zeroshot-" ++ cid,
            install := { attempts := 3, sleepsSec := [2, 4], warned := true,
                         installed := false } } ∧
    (∀ exec2 : Nat → ExecResult, (∀ i, exec i = .success ↔ exec2 i = .success) →
      createContainer cid true exec2 = createContainer cid true exec) := by
  constructor
  · simp [createContainer, installWithRetry_all_fail exec h]
  · intro e2 hsame
    have h2 : ∀ i, e2 i ≠ .success := fun i hs => h i ((hsame i).mpr hs)
    simp [createContainer, installWithRetry_all_fail exec h, installWithRetry_all_fail e2 h2]

/-- C1 witness: an install that exits non-zero on every attempt. -/
theorem createContainer_install_exhaustion_witness :
    createContainer "c1" true (fun _ => ExecResult.nonzeroExit) =
      .ok { containerId := "zeroshot-" ++ "c1",
            install := { attempts := 3, sleepsSec := [2, 4], warned := true,
                         installed := false } } := by
  have h : ∀ i : Nat, (fun _ => ExecResult.nonzeroExit : Nat → ExecResult) i ≠
      ExecResult.success := fun _ hh => ExecResult.noConfusion hh
  exact (createContainer_install_exhaustion "c1" (fun _ => ExecResult.nonzeroExit) h).1

/-- C7: `shouldUseDirectApi` is true exactly when the API key is
present (JS-truthy: set and non-empty) and either `useDirectApi` is
explicitly true, or it is not explicitly false and the agent is a
conductor with JSON output format and a truthy JSON schema. -/
theorem shouldUseDirectApi_iff (apiKey : Option String) (cfg : AgentConfig) :
    shouldUseDirectApi apiKey cfg = true ↔
      (optTruthy apiKey = true ∧
        (cfg.useDirectApi = some true ∨
          (cfg.useDirectApi ≠ some false ∧ cfg.role = some "conductor" ∧
            cfg.outputFormat = some "json" ∧ jsTruthy cfg.jsonSchema = true))) := by
  rcases cfg with ⟨u, r, o, s⟩
  unfold shouldUseDirectApi
  cases hk : optTruthy apiKey
  · simp [hk]
  · rcases u with _ | b
    · simp [hk, and_assoc]
    · cases b <;> simp [hk, and_assoc]

theorem countOf_setCount_self (c : List (String × Nat)) (t : String) (n : Nat) :
    countOf (setCount c t n) t = n := by
  induction c with
  | nil => simp [setCount, countOf, assocLookup]
  | cons p rest ih =>
    rcases p with ⟨k, v⟩
    by_cases hk : k = t
    · simp [setCount, hk, countOf, assocLookup]
    · simp [setCount, hk, countOf, assocLookup] at ih ⊢
      exact ih

theorem countOf_setCount_ne (c : List (String × Nat)) (u t : String) (n : Nat)
    (h : t ≠ u) : countOf (setCount c u n) t = countOf c t := by
  induction c with
  | nil =>
    have h2 : ¬u = t := fun hh => h hh.symm
    simp [setCount, countOf, assocLookup, h2]
  | cons p rest ih =>
    rcases p with ⟨k, v⟩
    by_cases hk : k = u
    · subst hk
      have h2 : ¬k = t := fun hh => h hh.symm
      simp [setCount, countOf, assocLookup, h2]
    · simp only [setCount, if_neg hk]
      by_cases ht : k = t
      · subst ht
        simp [countOf, assocLookup]
      · simp only [countOf, assocLookup, if_neg ht]
        exact ih

theorem countOf_logUnknown_le (c : List (String × Nat)) (u t : String)
    (h : countOf c t ≤ 5) : countOf (logUnknown c u).1 t ≤ 5 := by
  unfold logUnknown
  by_cases h5 : 5 ≤ countOf c u
  · simpa [h5] using h
  · simp only [h5, if_false, ite_false]
    by_cases ht : t = u
    · subst ht
      rw [countOf_setCount_self]
      omega
    · rw [countOf_setCount_ne _ _ _ _ ht]
      exact h

theorem codexHandleLine_countOf (c : List (String × Nat)) (l : String) (t : String) :
    countOf (codexHandleLine c l).2.1 t =
      countOf c t + ((codexHandleLine c l).2.2.toList.count t) := by
  cases hu : (parseEvent l).unknownType with
  | none => simp [codexHandleLine, hu]
  | some v =>
    cases v with
    | str s =>
      simp only [codexHandleLine, hu]
      by_cases h5 : 5 ≤ countOf c s
      · simp [logUnknown, h5]
      · by_cases ht : t = s
        · subst ht
          simp [logUnknown, h5, countOf_setCount_self]
        · have h2 : ¬s = t := fun hh => ht hh.symm
          simp [logUnknown, h5, countOf_setCount_ne _ _ _ _ ht, h2, List.count_cons]
    | null => simp [codexHandleLine, hu]
    | bool b => simp [codexHandleLine, hu]
    | num n => simp [codexHandleLine, hu]
    | arr xs => simp [codexHandleLine, hu]
    | obj fs => simp [codexHandleLine, hu]

theorem codexHandleLine_le (c : List (String × Nat)) (l : String) (t : String)
    (h : countOf c t ≤ 5) : countOf (codexHandleLine c l).2.1 t ≤ 5 := by
  cases hu : (parseEvent l).unknownType with
  | none => simpa [codexHandleLine, hu] using h
  | some v =>
    cases v with
    | str s => simpa [codexHandleLine, hu] using countOf_logUnknown_le c s t h
    | null => simpa [codexHandleLine, hu] using h
    | bool b => simpa [codexHandleLine, hu] using h
    | num n => simpa [codexHandleLine, hu] using h
    | arr xs => simpa [codexHandleLine, hu] using h
    | obj fs => simpa [codexHandleLine, hu] using h

theorem codexRun_countOf (lines : List String) (c : List (String × Nat)) (t : String) :
    countOf (codexRun c lines).1 t = countOf c t + (codexRun c lines).2.count t := by
  induction lines generalizing c with
  | nil => simp [codexRun]
  | cons l ls ih =>
    simp only [codexRun]
    rw [List.count_append, ih, codexHandleLine_countOf]
    omega

theorem codexRun_countOf_le (lines : List String) (c : List (String × Nat)) (t : String)
    (h : countOf c t ≤ 5) : countOf (codexRun c lines).1 t ≤ 5 := by
  induction lines generalizing c with
  | nil => simpa [codexRun] using h
  | cons l ls ih =>
    simp only [codexRun]
    exact ih _ (codexHandleLine_le c l t h)

/-- C8: an event whose type is unknown to the parser yields no neutral
event, and over any stream of stdout lines processed from a fresh
provider the per-type unknown counter never exceeds 5 and at most 5
log lines are emitted per distinct unknown type. -/
theorem unknown_events_ignored_and_capped :
    (∀ line tv, (parseEvent line).unknownType = some tv →
      (parseEvent line).out = ItemOut.nothing) ∧
    (∀ (lines : List String) (t : String),
      countOf (codexRun [] lines).1 t ≤ 5 ∧ (codexRun [] lines).2.count t ≤ 5) := by
  constructor
  · intro line tv h
    unfold parseEvent at h ⊢
    cases hp : jsonParse line with
    | none => simp [hp] at h
    | some ev =>
      simp only [hp] at h ⊢
      split_ifs at h ⊢
      all_goals simp_all
  · intro lines t
    have h0 : countOf ([] : List (String × Nat)) t = 0 := rfl
    have hle := codexRun_countOf_le lines [] t (by omega)
    have heq := codexRun_countOf lines [] t
    exact ⟨hle, by omega⟩

/-- C8 witness: a line with an unknown event type is ignored. -/
theorem unknown_events_ignored_and_capped_witness :
    (parseEvent "\x7b\"type\":\"weird\"\x7d").out = ItemOut.nothing :=
  unknown_events_ignored_and_capped.1 "\x7b\"type\":\"weird\"\x7d" (.str "weird") rfl

/-- C5 counterexample: the google builder omits `--cwd` although
`supportsCwd` is merely absent, not explicitly false — refuting
"omitted exactly when explicitly false" for every builder. -/
theorem capability_gate_cex :
    googleBuildCommand "ctx" { cwd := some "/work" } =
      { binary := "gemini", args := ["-p", "ctx"], env := [] } ∧
    ({} : CliFeatureFlags).supportsCwd ≠ some false := by
  exact ⟨rfl, by decide⟩

/-- C5 amended: the anthropic builder omits each of its gated flags
(output-format, verbose, include-partial-messages, json-schema, model,
auto-approve) exactly when its capability is explicitly false; the
openai and google builders emit each of their gated flags (openai:
json, config override, cwd, auto-approve bypass, output-schema;
google: stream-json output-format, cwd, yolo) only when the capability
is explicitly true (absent also suppresses), and the model flags of
the openai and google builders are not capability-gated at all; the
OpenAI provider emits a warning the first time a build requests a
feature whose capability is explicitly false, once per key for each of
its keys `openai-auto-approve`, `openai-jsonschema` and
`openai-reasoning`, and never again for that key. -/
theorem capability_gates_amended :
    (∀ b : Option Bool,
      ("--output-format" ∈ (anthropicBuildCommand "ctx"
        { outputFormat := some "json", cliFeatures := { supportsOutputFormat := b } } {}).args ↔
        b ≠ some false)) ∧
    (∀ b : Option Bool,
      ("--verbose" ∈ (anthropicBuildCommand "ctx"
        { outputFormat := some "stream-json",
          cliFeatures := { supportsVerbose := b } } {}).args ↔
        b ≠ some false)) ∧
    (∀ b : Option Bool,
      ("--include-partial-messages" ∈ (anthropicBuildCommand "ctx"
        { outputFormat := some "stream-json",
          cliFeatures := { supportsIncludePartials := b } } {}).args ↔
        b ≠ some false)) ∧
    (∀ b : Option Bool,
      ("--json-schema" ∈ (anthropicBuildCommand "ctx"
        { outputFormat := some "json", jsonSchema := some "sch",
          cliFeatures := { supportsJsonSchema := b } } {}).args ↔
        b ≠ some false)) ∧
    (∀ b : Option Bool,
      ("--model" ∈ (anthropicBuildCommand "ctx"
        { modelSpec := some { model := some "m1" },
          cliFeatures := { supportsModel := b } } {}).args ↔
        b ≠ some false)) ∧
    (∀ b : Option Bool,
      ("--dangerously-skip-permissions" ∈ (anthropicBuildCommand "ctx"
        { autoApprove := true, cliFeatures := { supportsAutoApprove := b } } {}).args ↔
        b ≠ some false)) ∧
    (∀ b : Option Bool,
      ("--json" ∈ (openaiCliBuildCommand "ctx"
        { outputFormat := some "json", cliFeatures := { supportsJson := b } }).args ↔
        b = some true)) ∧
    (∀ b : Option Bool,
      ("--config" ∈ (openaiCliBuildCommand "ctx"
        { modelSpec := some { reasoningEffort := some "high" },
          cliFeatures := { supportsConfigOverride := b } }).args ↔
        b = some true)) ∧
    (∀ b : Option Bool,
      ("-C" ∈ (openaiCliBuildCommand "ctx"
        { cwd := some "/work", cliFeatures := { supportsCwd := b } }).args ↔ b = some true)) ∧
    (∀ b : Option Bool,
      ("--dangerously-bypass-approvals-and-sandbox" ∈ (openaiCliBuildCommand "ctx"
        { autoApprove := true, cliFeatures := { supportsAutoApprove := b } }).args ↔
        b = some true)) ∧
    (∀ b : Option Bool,
      ("--output-schema" ∈ (openaiCliBuildCommand "ctx"
        { jsonSchema := some "sch", cliFeatures := { supportsOutputSchema := b } }).args ↔
        b = some true)) ∧
    (∀ b : Option Bool,
      "-m" ∈ (openaiCliBuildCommand "ctx"
        { modelSpec := some { model := some "m1" }, cliFeatures := { supportsModel := b } }).args) ∧
    (∀ b : Option Bool,
      ("--output-format" ∈ (googleBuildCommand "ctx"
        { outputFormat := some "json", cliFeatures := { supportsStreamJson := b } }).args ↔
        b = some true)) ∧
    (∀ b : Option Bool,
      ("--cwd" ∈ (googleBuildCommand "ctx"
        { cwd := some "/work", cliFeatures := { supportsCwd := b } }).args ↔ b = some true)) ∧
    (∀ b : Option Bool,
      ("--yolo" ∈ (googleBuildCommand "ctx"
        { autoApprove := true, cliFeatures := { supportsAutoApprove := b } }).args ↔
        b = some true)) ∧
    (∀ b : Option Bool,
      "-m" ∈ (googleBuildCommand "ctx"
        { modelSpec := some { model := some "m1" }, cliFeatures := { supportsModel := b } }).args) ∧
    ((openaiProviderBuildCommand [] "ctx"
        { autoApprove := true, cliFeatures := { supportsAutoApprove := some false } }).2.2 =
      ["openai-auto-approve"]) ∧
    ((openaiProviderBuildCommand
        (openaiProviderBuildCommand [] "ctx"
          { autoApprove := true, cliFeatures := { supportsAutoApprove := some false } }).2.1
        "ctx"
        { autoApprove := true, cliFeatures := { supportsAutoApprove := some false } }).2.2 =
      []) ∧
    ((openaiProviderBuildCommand [] "ctx"
        { jsonSchema := some "sch",
          cliFeatures := { supportsOutputSchema := some false } }).2.2 =
      ["openai-jsonschema"]) ∧
    ((openaiProviderBuildCommand
        (openaiProviderBuildCommand [] "ctx"
          { jsonSchema := some "sch",
            cliFeatures := { supportsOutputSchema := some false } }).2.1
        "ctx"
        { jsonSchema := some "sch",
          cliFeatures := { supportsOutputSchema := some false } }).2.2 =
      []) ∧
    ((openaiProviderBuildCommand [] "ctx"
        { modelSpec := some { reasoningEffort := some "high" },
          cliFeatures := { supportsConfigOverride := some false } }).2.2 =
      ["openai-reasoning"]) ∧
    ((openaiProviderBuildCommand
        (openaiProviderBuildCommand [] "ctx"
          { modelSpec := some { reasoningEffort := some "high" },
            cliFeatures := { supportsConfigOverride := some false } }).2.1
        "ctx"
        { modelSpec := some { reasoningEffort := some "high" },
          cliFeatures := { supportsConfigOverride := some false } }).2.2 =
      []) ∧
    (∀ (w : List String) (key : String),
      key ∈ (warnOnce w key).1 ∧ (warnOnce (warnOnce w key).1 key).2 = false) := by
  refine ⟨?_, ?_, ?_, ?_, ?_, ?_, ?_, ?_, ?_, ?_, ?_, ?_, ?_, ?_, ?_, ?_,
    by decide, by decide, by decide, by decide, by decide, by decide, ?_⟩
  all_goals try (intro b; rcases b with _ | (_ | _) <;> decide)
  intro w key
  by_cases h : key ∈ w
  · exact ⟨by simp [warnOnce, h], by simp [warnOnce, h]⟩
  · exact ⟨by simp [warnOnce, h], by simp [warnOnce, h]⟩

/-- C6 counterexample: with two objects in the text the code's greedy
first-brace-to-last-brace span fails to parse and the call errors,
while the claim's "first balanced JSON object" exists and parses. -/
theorem extract_chain_cex :
    extractParsedJson "x \x7b\"a\": 1\x7d y \x7b\"b\": 2\x7d" =
      .error "Unexpected token in object span" ∧
    firstBalancedObject "x \x7b\"a\": 1\x7d y \x7b\"b\": 2\x7d" = some "\x7b\"a\": 1\x7d" ∧
    jsonParse "\x7b\"a\": 1\x7d" = some (.obj [("a", .num 1)]) :=
  ⟨rfl, rfl, rfl⟩

/-- C6 amended: the extraction chain is strict parse; else the fenced
block's trimmed contents, a failure there being a hard error with no
further fallback; else the greedy first-brace-to-last-brace span (not
the first balanced object), a failure there being a hard error; else a
validation error. -/
theorem extract_chain_amended (raw : String) :
    extractParsedJson raw = amendedExtractChain raw := by
  unfold extractParsedJson amendedExtractChain
  cases hj : jsonParse raw with
  | some v => rfl
  | none =>
    cases hf : fencedJsonBlock raw with
    | some inner => rfl
    | none =>
      cases hg : greedyObjectSpan raw with
      | some span => rfl
      | none => rfl

end Zeroshot
